import Mathlib

/-!
# gcc-pi-gpio-expander: a shallow embedding of `gcc-pi-gpio-expander.c`

The program opens an I2C bus device, configures an MCP23017 port expander,
polls port A and mirrors every change onto port B, and after `LIMIT` changes
restores the chip and closes the device.

The embedding is a pure function from an environment (the results of the
system calls) and the indeterminate initial value of `data` to the final
program state, which carries the chronological trace of every completed
system call and console write.
-/

namespace GpioExpander

/-! ## Constants (`#define`s of the source) -/

/-- An `unsigned char`. -/
abbrev Byte := Fin 256

def DEVICE : String := "/dev/i2c-0"
def ADDRESS : Nat := 0x20

def IODIRA : Byte := 0x00
def IODIRB : Byte := 0x01
def IPOLA : Byte := 0x02
def IPOLB : Byte := 0x03
def GPINTENA : Byte := 0x04
def GPINTENB : Byte := 0x05
def DEFVALA : Byte := 0x06
def DEFVALB : Byte := 0x07
def INTCONA : Byte := 0x08
def INTCONB : Byte := 0x09
def IOCON : Byte := 0x0A
def GPPUA : Byte := 0x0C
def GPPUB : Byte := 0x0D
def INTFA : Byte := 0x0E
def INTFB : Byte := 0x0F
def INTCAPA : Byte := 0x10
def INTCAPB : Byte := 0x11
def GPIOA : Byte := 0x12
def GPIOB : Byte := 0x13
def OLATA : Byte := 0x14
def OLATB : Byte := 0x15

def DELAY : Nat := 200000
def LIMIT : Int := 10

/-! ## `dumpbin` -/

/-- The loop `for (; count >= lo; count--) putchar('0' + ((byte >> count) & 1));`
of `dumpbin`.  The last argument is `count + 1`, so that the value `count = -1`
with which the second loop of `dumpbin` ends is the argument `0`.  The result is
the sequence of characters handed to `putchar`, in order. -/
def putBits (byte : Nat) (lo : Nat) : Nat → List Char
  | 0 => []
  | count + 1 =>
    if lo ≤ count then
      Char.ofNat ('0'.toNat + ((byte >>> count) &&& 1)) :: putBits byte lo count
    else []

/-- The function `dumpbin(unsigned char byte)`: the characters it writes to the
console, in order. -/
def dumpbin (byte : Byte) : List Char :=
  putBits byte.val 4 (7 + 1) ++ [' '] ++ putBits byte.val 0 (3 + 1) ++ [' ']

/-! ## The C library's `printf("%4.2u\n", count)` -/

/-- The conversion `%4.2u` of `printf`: the decimal digits of the unsigned
argument, zero-filled on the left to at least two digits (precision 2), then
space-filled on the left to at least four characters (field width 4). -/
def printf_4_2u (n : Nat) : List Char :=
  let digits := Nat.toDigits 10 n
  let digits := List.replicate (2 - digits.length) '0' ++ digits
  List.replicate (4 - digits.length) ' ' ++ digits

/-- The value an `int` has when `printf` reads it as `unsigned` (32 bits). -/
def asUnsigned (i : Int) : Nat := (i % 4294967296).toNat

/-! ## Environment, events and program state -/

/-- The results of the system calls of one run.  `writeRet i n` is what the
`i`-th call of `write` (counted from 0) returns when asked to transfer `n`
bytes.  `reads` holds, for each successive call of `read`, the returned count
and the byte deposited in `buf[0]`; once the list is used up the next `read`
blocks for ever. -/
structure Env where
  openRet : Int
  ioctlRet : Int
  writeRet : Nat → Nat → Int
  reads : List (Int × Byte)

/-- A completed system call or console write. -/
inductive Event where
  | sysOpen (path : String) (ret : Int)
  | ioctl (fd : Int) (addr : Nat) (ret : Int)
  | write (fd : Int) (buf : List Byte) (ret : Int)
  | read (fd : Int) (bytes : Nat) (ret : Int) (got : Byte)
  | stdout (text : List Char)
  | usleep (usec : Nat)
  | close (fd : Int)
  deriving DecidableEq

/-- The variables of `main` that live across statements, with the trace of the
run so far.  `writes` counts the calls of `write` made so far.  `status` is
`none` while the process runs and `some c` once it has ended with exit status
`c`.  The local `buf`/`bytes` pair is not stored: every `write` sends exactly
the bytes assigned to `buf[0..bytes-1]` just before it, which is the list given
to `Event.write`. -/
structure State where
  count : Int
  data : Byte
  fd : Int
  writes : Nat
  trace : List Event
  status : Option Int
  deriving DecidableEq

/-- Append one event to the trace. -/
def emit (s : State) (e : Event) : State :=
  { s with trace := s.trace ++ [e] }

/-- The call `write(fd, buf, bytes)` with `buf[0..bytes-1] = buf`, returning `ret`. -/
def logWrite (s : State) (buf : List Byte) (ret : Int) : State :=
  { s with trace := s.trace ++ [Event.write s.fd buf ret], writes := s.writes + 1 }

/-- The statements `printf(msg); exit(1);`. -/
def die (s : State) (msg : String) : State :=
  { s with trace := s.trace ++ [Event.stdout msg.toList], status := some 1 }

/-! ## `main` -/

/-- One execution of the body of `while (count < LIMIT)` (source lines 144-172).
`r` is the result of the call of `read`: `none` when the call never returns.
The body runs with `count < LIMIT = 10`, so `count++` stays far from the range
of `int` and is plain addition. -/
def loopBody (env : Env) (s : State) (r : Option (Int × Byte)) : State :=
  let n := env.writeRet s.writes 1
  let s1 := logWrite s [GPIOA] n
  if n ≠ 1 then die s1 "Error writing data\n"
  else
    match r with
    | none => s1
    | some (m, b) =>
      let s2 := emit s1 (Event.read s1.fd 1 m b)
      if m ≠ 1 then die s2 "Error reading data\n"
      else if s2.data ≠ b ∨ s2.count < 1 then
        let s3 := { s2 with data := b }
        let k := env.writeRet s3.writes 2
        let s4 := logWrite s3 [GPIOB, s3.data] k
        if k ≠ 2 then die s4 "Error writing data\n"
        else
          let s5 := emit s4 (Event.stdout (dumpbin s4.data))
          let s6 := emit s5 (Event.stdout (printf_4_2u (asUnsigned s5.count) ++ ['\n']))
          let s7 := emit s6 (Event.usleep DELAY)
          { s7 with count := s7.count + 1 }
      else s2

/-- Source lines 178-189: the last `write`, `close (fd)` and `return 0`. -/
def teardown (env : Env) (s : State) : State :=
  let n := env.writeRet s.writes 4
  let s1 := logWrite s [IODIRA, 0xFF, 0xFF, 0x00] n
  if n ≠ 4 then die s1 "Error writing data\n"
  else
    let s2 := emit s1 (Event.close s1.fd)
    { s2 with status := some 0 }

/-- The loop `while (count < LIMIT) { ... }` followed by the rest of `main`.
The list holds the results of the calls of `read` still to come.  An `exit`
inside the body ends the run. -/
def whileLoop (env : Env) (s : State) : List (Int × Byte) → State
  | [] => if s.count < LIMIT then loopBody env s none else teardown env s
  | r :: rest =>
    if s.count < LIMIT then
      let s1 := loopBody env s (some r)
      if s1.status = none then whileLoop env s1 rest else s1
    else teardown env s

/-- The function `main`.  `d0` is the indeterminate value the variable `data`
holds before its first assignment. -/
def main (env : Env) (d0 : Byte) : State :=
  let fd := env.openRet
  let s0 : State :=
    { count := 0, data := d0, fd := fd, writes := 0,
      trace := [Event.sysOpen DEVICE fd], status := none }
  if fd < 0 then die s0 "Failed to open device\n"
  else
    let s1 := emit s0 (Event.ioctl fd ADDRESS env.ioctlRet)
    if env.ioctlRet < 0 then die s1 "Unable to access device\n"
    else
      let n := env.writeRet s1.writes 4
      let s2 := logWrite s1 [IODIRA, 0xFF, 0x00, 0xFF] n
      if n ≠ 4 then die s2 "Error writing data\n"
      else
        let k := env.writeRet s2.writes 2
        let s3 := logWrite s2 [GPPUA, 0xFF] k
        if k ≠ 2 then die s3 "Error writing data\n"
        else whileLoop env { s3 with count := 0 } env.reads

/-! ## Observations on traces -/

/-- The value an event writes to port B, when the event is a two-byte `write`
whose buffer starts with the register address `GPIOB`. -/
def portBValue : Event → Option Byte
  | Event.write _ [a, v] _ => if a = GPIOB then some v else none
  | _ => none

/-- The values written to port B, in order. -/
def portBWrites (tr : List Event) : List Byte := tr.filterMap portBValue

/-- The byte a completed `read` delivered. -/
def readValue : Event → Option Byte
  | Event.read _ _ _ b => some b
  | _ => none

/-- The bytes delivered by the completed reads, in order. -/
def portAReads (tr : List Event) : List Byte := tr.filterMap readValue

/-- The text an event writes to the console. -/
def consoleText : Event → List Char
  | Event.stdout t => t
  | _ => []

/-- Everything written to the console, in order. -/
def console (tr : List Event) : List Char := (tr.map consoleText).flatten

/-! ## Environments and concrete runs -/

/-- An environment in which every call succeeds: `open` and `ioctl` return a
non-negative value, every `write` transfers the requested number of bytes and
every `read` returns one byte. -/
def AllOk (env : Env) : Prop :=
  0 ≤ env.openRet ∧ 0 ≤ env.ioctlRet ∧ (∀ i n, env.writeRet i n = n) ∧
    ∀ r ∈ env.reads, r.1 = 1

/-- The environment in which every call succeeds, `open` returns descriptor 3
and the reads deliver the bytes `rs`. -/
def okEnv (rs : List Byte) : Env :=
  { openRet := 3, ioctlRet := 0, writeRet := fun _ n => n, reads := rs.map (fun b => (1, b)) }

/-! ## More observations on traces and states -/

/-- The descriptor an event closes. -/
def closeValue : Event → Option Int
  | Event.close fd => some fd
  | _ => none

/-- The descriptors closed during the run, in order. -/
def closes (tr : List Event) : List Int := tr.filterMap closeValue

/-- The buffer an event hands to `write`. -/
def writeValue : Event → Option (List Byte)
  | Event.write _ buf _ => some buf
  | _ => none

/-- The buffers handed to `write` during the run, in order. -/
def writeBufs (tr : List Event) : List (List Byte) := tr.filterMap writeValue

/-- The last `write` of `main` (source lines 178-183) appears in the trace. -/
def teardownIssued (tr : List Event) : Prop :=
  ∃ fd ret, Event.write fd [IODIRA, 0xFF, 0xFF, 0x00] ret ∈ tr

/-- The values stored in successive registers starting at `addr`. -/
def assignFrom (addr : Byte) : List Byte → List (Byte × Byte)
  | [] => []
  | v :: rest => (addr, v) :: assignFrom (addr + 1) rest

/-- The register assignments one `write` to the chip performs, as the comments
of source lines 115-118 and 179-182 describe them: the first byte of the buffer
is a register address, the following bytes are stored in that register and the
registers after it. -/
def registerWrites : List Byte → List (Byte × Byte)
  | [] => []
  | addr :: values => assignFrom addr values

/-- The loop condition `count < LIMIT` is false: the run is past the loop. -/
def leftLoop (s : State) : Prop := ¬ s.count < LIMIT

instance (s : State) : Decidable (leftLoop s) :=
  inferInstanceAs (Decidable (¬ s.count < LIMIT))

/-! ## Concrete environments and traces -/

/-- The device opens, the address bind (`ioctl`) fails. -/
def envBindFail : Env :=
  { openRet := 3, ioctlRet := -1, writeRet := fun _ n => n, reads := [] }

/-- The setup succeeds, the first register-select write transfers 0 bytes. -/
def envShortWrite : Env :=
  { openRet := 3, ioctlRet := 0, writeRet := fun i n => if i = 2 then 0 else n,
    reads := [(1, 5)] }

/-- The setup and the register-select write succeed, the first read returns 0
bytes. -/
def envShortRead : Env :=
  { openRet := 3, ioctlRet := 0, writeRet := fun _ n => n, reads := [(0, 0)] }

/-- Eleven successive readings of the same byte. -/
def constantReads : List Byte := List.replicate 11 0

/-- The events of the run on the single reading `7` that come before its write
to port B. -/
def sevenBefore : List Event :=
  [Event.sysOpen DEVICE 3, Event.ioctl 3 ADDRESS 0,
    Event.write 3 [IODIRA, 0xFF, 0x00, 0xFF] 4, Event.write 3 [GPPUA, 0xFF] 2,
    Event.write 3 [GPIOA] 1, Event.read 3 1 1 7]

/-- The events of the run on the single reading `7` that come after its write
to port B. -/
def sevenAfter : List Event :=
  [Event.stdout "0000 0111 ".toList, Event.stdout "  00\n".toList, Event.usleep DELAY,
    Event.write 3 [GPIOA] 1]

/-- Ten successive readings that all differ from their predecessor. -/
def tenChanges : List Byte := [0, 1, 2, 3, 4, 5, 6, 7, 8, 9]

/-! ## Predicates used in the statements -/

/-- What the end of a run past the loop looks like. -/
def TeardownShape (env : Env) (s : State) : Prop :=
  ∃ pre ret, ¬ teardownIssued pre ∧
    s.trace = pre ++ Event.write env.openRet [IODIRA, 0xFF, 0xFF, 0x00] ret ::
      (if ret = 4 then [Event.close env.openRet]
        else [Event.stdout "Error writing data\n".toList]) ∧
    s.status = some (if ret = 4 then 0 else 1)

/-- A device transfer that moved a number of bytes other than the declared one. -/
def failed : Event → Prop
  | Event.write _ buf ret => ret ≠ buf.length
  | Event.read _ bytes ret _ => ret ≠ bytes
  | _ => False

/-- The message `main` prints after a failed transfer. -/
def errorMessage : Event → List Char
  | Event.read _ _ _ _ => "Error reading data\n".toList
  | _ => "Error writing data\n".toList

/-- The device transfers `main` issues, with their declared byte counts: the
four-byte setup and teardown writes, the two-byte pull-up and port-B writes, the
one-byte register-select write and the one-byte read. -/
def declared : Event → Prop
  | Event.write _ buf _ =>
    buf = [IODIRA, 0xFF, 0x00, 0xFF] ∨ buf = [GPPUA, 0xFF] ∨ buf = [GPIOA] ∨
      (∃ v, buf = [GPIOB, v]) ∨ buf = [IODIRA, 0xFF, 0xFF, 0x00]
  | Event.read _ bytes _ _ => bytes = 1
  | _ => True

/-- The run either saw no failed transfer, or ended right after its first one
with the matching message and exit status 1. -/
def FailFast (s : State) : Prop :=
  (∀ e ∈ s.trace, ¬ failed e) ∨
  ∃ pre e, s.trace = pre ++ [e, Event.stdout (errorMessage e)] ∧ failed e ∧
    (∀ x ∈ pre, ¬ failed x) ∧ s.status = some 1

/-- The event is a `write` whose buffer starts with the register address `GPIOB`. -/
def isPortBWrite : Event → Prop
  | Event.write _ buf _ => buf.head? = some GPIOB
  | _ => False

/-- Every write to port B in the trace is the two bytes `[GPIOB, b]` and comes
right after a one-byte read, on the same descriptor, that returned the byte `b`. -/
def PassThrough (tr : List Event) : Prop :=
  ∀ pre post fd buf ret, tr = pre ++ Event.write fd buf ret :: post →
    buf.head? = some GPIOB → ∃ pre' b, pre = pre' ++ [Event.read fd 1 1 b] ∧ buf = [GPIOB, b]

/-- The character for bit `i` of `b`: `'1'` when the bit is set, `'0'` otherwise. -/
def bitChar (b : Nat) (i : Nat) : Char := if b / 2 ^ i % 2 = 1 then '1' else '0'

/-- The console line for write number `k` to port B (`k < 100`), of the byte `b`:
the two groups of four bits each followed by a space, the count `k` as two
decimal digits (zero-padded) right-justified in a field of four characters, and
a newline. -/
def consoleLine (k : Nat) (b : Byte) : List Char :=
  [bitChar b 7, bitChar b 6, bitChar b 5, bitChar b 4, ' ',
    bitChar b 3, bitChar b 2, bitChar b 1, bitChar b 0, ' '] ++
  [' ', ' ', Nat.digitChar (k / 10), Nat.digitChar (k % 10)] ++ ['\n']

/-- The console lines for the writes `ws` to port B, the first of them being
write number `k`. -/
def consoleLines (k : Nat) : List Byte → List Char
  | [] => []
  | b :: rest => consoleLine k b ++ consoleLines (k + 1) rest

/-- The elements of a sequence that differ from the element before them, the
element before the first one being `prev`. -/
def changesAfter (prev : Byte) : List Byte → List Byte
  | [] => []
  | b :: rest => if prev = b then changesAfter prev rest else b :: changesAfter b rest

/-- A sequence with its consecutive repeats collapsed: its first element, then
every element that differs from the element before it. -/
def collapse : List Byte → List Byte
  | [] => []
  | b :: rest => b :: changesAfter b rest

/-- The writes to port B still to come from the readings `rs`, seen from the
head of the loop in state `s`: the first reading counts as a change while
`count < 1`. -/
def pending (s : State) (rs : List Byte) : List Byte :=
  if s.count < 1 then collapse rs else changesAfter s.data rs

/-- The state of `main` at the first test of `count < LIMIT`, after a setup
in which every call succeeded. -/
def loopStart (env : Env) (d0 : Byte) : State :=
  { count := 0, data := d0, fd := env.openRet, writes := 2,
    trace := [Event.sysOpen DEVICE env.openRet,
      Event.ioctl env.openRet ADDRESS env.ioctlRet,
      Event.write env.openRet [IODIRA, 0xFF, 0x00, 0xFF] 4,
      Event.write env.openRet [GPPUA, 0xFF] 2],
    status := none }

/-- Two states that differ at most in `data`, and in `data` only while
`count < 1`, which is when the loop does not look at it. -/
def Agree (s t : State) : Prop :=
  s.count = t.count ∧ s.fd = t.fd ∧ s.writes = t.writes ∧ s.trace = t.trace ∧
    s.status = t.status ∧ (s.data = t.data ∨ s.count < 1)

/-- The counter is within its bounds and equals the number of writes to port B. -/
def CountInv (s : State) : Prop :=
  0 ≤ s.count ∧ s.count ≤ LIMIT ∧ s.count = (portBWrites s.trace).length

/-! ## Lemmas on `dumpbin` -/

theorem putchar_bit (n i : Nat) :
    Char.ofNat ('0'.toNat + ((n >>> i) &&& 1)) = bitChar n i := by
  rw [Nat.and_one_is_mod, Nat.shiftRight_eq_div_pow]
  rcases Nat.mod_two_eq_zero_or_one (n / 2 ^ i) with h | h <;> simp [bitChar, h]

theorem dumpbin_eq (b : Byte) :
    dumpbin b = [bitChar b 7, bitChar b 6, bitChar b 5, bitChar b 4, ' ',
      bitChar b 3, bitChar b 2, bitChar b 1, bitChar b 0, ' '] := by
  simp only [dumpbin, putBits, putchar_bit]
  simp

/-! ## The loop body and the teardown, branch by branch -/

theorem loopBody_selectFail (env : Env) (s : State) (r : Option (Int × Byte))
    (h : env.writeRet s.writes 1 ≠ 1) :
    loopBody env s r =
      { s with
        trace := s.trace ++ [Event.write s.fd [GPIOA] (env.writeRet s.writes 1),
          Event.stdout "Error writing data\n".toList],
        writes := s.writes + 1, status := some 1 } := by
  simp [loopBody, h, logWrite, die]

theorem loopBody_blocked (env : Env) (s : State) (h : env.writeRet s.writes 1 = 1) :
    loopBody env s none =
      { s with trace := s.trace ++ [Event.write s.fd [GPIOA] 1], writes := s.writes + 1 } := by
  simp [loopBody, h, logWrite]

theorem loopBody_readFail (env : Env) (s : State) (m : Int) (b : Byte)
    (h : env.writeRet s.writes 1 = 1) (hm : m ≠ 1) :
    loopBody env s (some (m, b)) =
      { s with
        trace := s.trace ++ [Event.write s.fd [GPIOA] 1, Event.read s.fd 1 m b,
          Event.stdout "Error reading data\n".toList],
        writes := s.writes + 1, status := some 1 } := by
  simp [loopBody, h, hm, logWrite, die, emit]

theorem loopBody_same (env : Env) (s : State) (b : Byte)
    (h : env.writeRet s.writes 1 = 1) (hd : ¬ (s.data ≠ b ∨ s.count < 1)) :
    loopBody env s (some (1, b)) =
      { s with
        trace := s.trace ++ [Event.write s.fd [GPIOA] 1, Event.read s.fd 1 1 b],
        writes := s.writes + 1 } := by
  have hd1 : s.data = b := by
    by_contra hx
    exact hd (Or.inl hx)
  have hd2 : ¬ s.count < 1 := fun hx => hd (Or.inr hx)
  simp [loopBody, h, hd1, hd2, logWrite, emit]

theorem loopBody_changeFail (env : Env) (s : State) (b : Byte)
    (h : env.writeRet s.writes 1 = 1) (hd : s.data ≠ b ∨ s.count < 1)
    (hk : env.writeRet (s.writes + 1) 2 ≠ 2) :
    loopBody env s (some (1, b)) =
      { s with
        data := b,
        trace := s.trace ++ [Event.write s.fd [GPIOA] 1, Event.read s.fd 1 1 b,
          Event.write s.fd [GPIOB, b] (env.writeRet (s.writes + 1) 2),
          Event.stdout "Error writing data\n".toList],
        writes := s.writes + 2, status := some 1 } := by
  rcases hd with hd | hd <;> simp [loopBody, h, hd, hk, logWrite, emit, die]

theorem loopBody_change (env : Env) (s : State) (b : Byte)
    (h : env.writeRet s.writes 1 = 1) (hd : s.data ≠ b ∨ s.count < 1)
    (hk : env.writeRet (s.writes + 1) 2 = 2) :
    loopBody env s (some (1, b)) =
      { s with
        count := s.count + 1, data := b,
        trace := s.trace ++ [Event.write s.fd [GPIOA] 1, Event.read s.fd 1 1 b,
          Event.write s.fd [GPIOB, b] 2, Event.stdout (dumpbin b),
          Event.stdout (printf_4_2u (asUnsigned s.count) ++ ['\n']),
          Event.usleep DELAY],
        writes := s.writes + 2 } := by
  rcases hd with hd | hd <;> simp [loopBody, h, hd, hk, logWrite, emit]

theorem teardown_fail (env : Env) (s : State) (h : env.writeRet s.writes 4 ≠ 4) :
    teardown env s =
      { s with
        trace := s.trace ++ [Event.write s.fd [IODIRA, 0xFF, 0xFF, 0x00] (env.writeRet s.writes 4),
          Event.stdout "Error writing data\n".toList],
        writes := s.writes + 1, status := some 1 } := by
  simp [teardown, h, logWrite, die]

theorem teardown_ok (env : Env) (s : State) (h : env.writeRet s.writes 4 = 4) :
    teardown env s =
      { s with
        trace := s.trace ++ [Event.write s.fd [IODIRA, 0xFF, 0xFF, 0x00] 4, Event.close s.fd],
        writes := s.writes + 1, status := some 0 } := by
  simp [teardown, h, logWrite, emit]

/-! ## Induction over a run -/

/-- Induction over the loop: `P` is an invariant at the head of the loop, `Q` a
property of the state in which the run ends (or blocks). -/
theorem whileLoop_induct (env : Env) (P Q : State → Prop) :
    ∀ (rs : List (Int × Byte)) (s : State),
    (∀ s r, r ∈ rs → P s → s.count < LIMIT → (loopBody env s (some r)).status = none →
      P (loopBody env s (some r))) →
    (∀ s r, r ∈ rs → P s → s.count < LIMIT → (loopBody env s (some r)).status ≠ none →
      Q (loopBody env s (some r))) →
    (∀ s, P s → s.count < LIMIT → Q (loopBody env s none)) →
    (∀ s, P s → ¬ s.count < LIMIT → Q (teardown env s)) →
    P s → Q (whileLoop env s rs) := by
  intro rs
  induction rs with
  | nil =>
    intro s _ _ hblock htear hs
    unfold whileLoop
    split_ifs with hc
    · exact hblock s hs hc
    · exact htear s hs hc
  | cons r rest ih =>
    intro s hbody hexit hblock htear hs
    by_cases hc : s.count < LIMIT
    · by_cases hst : (loopBody env s (some r)).status = none
      · simp only [whileLoop, hc, hst, if_true]
        exact ih _ (fun s x hx => hbody s x (List.mem_cons_of_mem _ hx))
          (fun s x hx => hexit s x (List.mem_cons_of_mem _ hx)) hblock htear
          (hbody s r (List.mem_cons_self _ _) hs hc hst)
      · simp only [whileLoop, hc, hst, if_true, if_false]
        exact hexit s r (List.mem_cons_self _ _) hs hc hst
    · simp only [whileLoop, hc, if_false]
      exact htear s hs hc

/-- Induction over a whole run of `main`: one premise for each way through the
setup, the loop body and the teardown.  `P` is an invariant of the states at the
head of the loop, `Q` a property of the state in which the run ends or blocks. -/
theorem main_induct (env : Env) (d0 : Byte) (P Q : State → Prop)
    (hopen : env.openRet < 0 →
      Q { count := 0, data := d0, fd := env.openRet, writes := 0,
          trace := [Event.sysOpen DEVICE env.openRet,
            Event.stdout "Failed to open device\n".toList],
          status := some 1 })
    (hioctl : 0 ≤ env.openRet → env.ioctlRet < 0 →
      Q { count := 0, data := d0, fd := env.openRet, writes := 0,
          trace := [Event.sysOpen DEVICE env.openRet,
            Event.ioctl env.openRet ADDRESS env.ioctlRet,
            Event.stdout "Unable to access device\n".toList],
          status := some 1 })
    (hsetup : 0 ≤ env.openRet → 0 ≤ env.ioctlRet → env.writeRet 0 4 ≠ 4 →
      Q { count := 0, data := d0, fd := env.openRet, writes := 1,
          trace := [Event.sysOpen DEVICE env.openRet,
            Event.ioctl env.openRet ADDRESS env.ioctlRet,
            Event.write env.openRet [IODIRA, 0xFF, 0x00, 0xFF] (env.writeRet 0 4),
            Event.stdout "Error writing data\n".toList],
          status := some 1 })
    (hpullup : 0 ≤ env.openRet → 0 ≤ env.ioctlRet → env.writeRet 0 4 = 4 →
      env.writeRet 1 2 ≠ 2 →
      Q { count := 0, data := d0, fd := env.openRet, writes := 2,
          trace := [Event.sysOpen DEVICE env.openRet,
            Event.ioctl env.openRet ADDRESS env.ioctlRet,
            Event.write env.openRet [IODIRA, 0xFF, 0x00, 0xFF] 4,
            Event.write env.openRet [GPPUA, 0xFF] (env.writeRet 1 2),
            Event.stdout "Error writing data\n".toList],
          status := some 1 })
    (hinit : 0 ≤ env.openRet → 0 ≤ env.ioctlRet → env.writeRet 0 4 = 4 →
      env.writeRet 1 2 = 2 →
      P { count := 0, data := d0, fd := env.openRet, writes := 2,
          trace := [Event.sysOpen DEVICE env.openRet,
            Event.ioctl env.openRet ADDRESS env.ioctlRet,
            Event.write env.openRet [IODIRA, 0xFF, 0x00, 0xFF] 4,
            Event.write env.openRet [GPPUA, 0xFF] 2],
          status := none })
    (hselect : ∀ s, P s → s.status = none → s.count < LIMIT →
      env.writeRet s.writes 1 ≠ 1 →
      Q { s with
          trace := s.trace ++ [Event.write s.fd [GPIOA] (env.writeRet s.writes 1),
            Event.stdout "Error writing data\n".toList],
          writes := s.writes + 1, status := some 1 })
    (hblock : ∀ s, P s → s.status = none → s.count < LIMIT →
      env.writeRet s.writes 1 = 1 →
      Q { s with trace := s.trace ++ [Event.write s.fd [GPIOA] 1], writes := s.writes + 1 })
    (hread : ∀ s m b, P s → s.status = none → (m, b) ∈ env.reads → s.count < LIMIT →
      env.writeRet s.writes 1 = 1 → m ≠ 1 →
      Q { s with
          trace := s.trace ++ [Event.write s.fd [GPIOA] 1, Event.read s.fd 1 m b,
            Event.stdout "Error reading data\n".toList],
          writes := s.writes + 1, status := some 1 })
    (hsame : ∀ s b, P s → s.status = none → (1, b) ∈ env.reads → s.count < LIMIT →
      env.writeRet s.writes 1 = 1 → s.data = b → 1 ≤ s.count →
      P { s with
          trace := s.trace ++ [Event.write s.fd [GPIOA] 1, Event.read s.fd 1 1 b],
          writes := s.writes + 1 })
    (hchangeFail : ∀ s b, P s → s.status = none → (1, b) ∈ env.reads → s.count < LIMIT →
      env.writeRet s.writes 1 = 1 → (s.data ≠ b ∨ s.count < 1) →
      env.writeRet (s.writes + 1) 2 ≠ 2 →
      Q { s with
          data := b,
          trace := s.trace ++ [Event.write s.fd [GPIOA] 1, Event.read s.fd 1 1 b,
            Event.write s.fd [GPIOB, b] (env.writeRet (s.writes + 1) 2),
            Event.stdout "Error writing data\n".toList],
          writes := s.writes + 2, status := some 1 })
    (hchange : ∀ s b, P s → s.status = none → (1, b) ∈ env.reads → s.count < LIMIT →
      env.writeRet s.writes 1 = 1 → (s.data ≠ b ∨ s.count < 1) →
      env.writeRet (s.writes + 1) 2 = 2 →
      P { s with
          count := s.count + 1, data := b,
          trace := s.trace ++ [Event.write s.fd [GPIOA] 1, Event.read s.fd 1 1 b,
            Event.write s.fd [GPIOB, b] 2, Event.stdout (dumpbin b),
            Event.stdout (printf_4_2u (asUnsigned s.count) ++ ['\n']),
            Event.usleep DELAY],
          writes := s.writes + 2 })
    (htearFail : ∀ s, P s → s.status = none → ¬ s.count < LIMIT →
      env.writeRet s.writes 4 ≠ 4 →
      Q { s with
          trace := s.trace ++ [Event.write s.fd [IODIRA, 0xFF, 0xFF, 0x00]
            (env.writeRet s.writes 4), Event.stdout "Error writing data\n".toList],
          writes := s.writes + 1, status := some 1 })
    (htear : ∀ s, P s → s.status = none → ¬ s.count < LIMIT →
      env.writeRet s.writes 4 = 4 →
      Q { s with
          trace := s.trace ++ [Event.write s.fd [IODIRA, 0xFF, 0xFF, 0x00] 4,
            Event.close s.fd],
          writes := s.writes + 1, status := some 0 }) :
    Q (main env d0) := by
  unfold main
  by_cases h1 : env.openRet < 0
  · simpa [h1, die] using hopen h1
  by_cases h2 : env.ioctlRet < 0
  · simpa [h1, h2, die, emit] using hioctl (not_lt.mp h1) h2
  by_cases h3 : env.writeRet 0 4 = 4
  swap
  · simpa [h1, h2, h3, die, emit, logWrite] using hsetup (not_lt.mp h1) (not_lt.mp h2) h3
  by_cases h4 : env.writeRet 1 2 = 2
  swap
  · simpa [h1, h2, h3, h4, die, emit, logWrite] using
      hpullup (not_lt.mp h1) (not_lt.mp h2) h3 h4
  simp only [h1, h2, h3, h4, emit, logWrite, if_false, ne_eq, not_true_eq_false,
    List.cons_append, List.nil_append, zero_add, Nat.reduceAdd]
  refine whileLoop_induct env (fun s => P s ∧ s.status = none) Q env.reads _ ?_ ?_ ?_ ?_
    ⟨hinit (not_lt.mp h1) (not_lt.mp h2) h3 h4, rfl⟩
  · rintro s ⟨m, b⟩ hr ⟨hP, hst⟩ hc hnone
    by_cases hw : env.writeRet s.writes 1 = 1
    swap
    · rw [loopBody_selectFail env s _ hw] at hnone
      simp at hnone
    by_cases hm : m = 1
    swap
    · rw [loopBody_readFail env s m b hw hm] at hnone
      simp at hnone
    subst hm
    by_cases hd : s.data ≠ b ∨ s.count < 1
    · by_cases hk : env.writeRet (s.writes + 1) 2 = 2
      · rw [loopBody_change env s b hw hd hk]
        exact ⟨hchange s b hP hst hr hc hw hd hk, hst⟩
      · rw [loopBody_changeFail env s b hw hd hk] at hnone
        simp at hnone
    · rw [loopBody_same env s b hw hd]
      have hd1 : s.data = b := by
        by_contra hx
        exact hd (Or.inl hx)
      have hd2 : 1 ≤ s.count := not_lt.mp (fun hx => hd (Or.inr hx))
      exact ⟨hsame s b hP hst hr hc hw hd1 hd2, hst⟩
  · rintro s ⟨m, b⟩ hr ⟨hP, hst⟩ hc hsome
    by_cases hw : env.writeRet s.writes 1 = 1
    swap
    · rw [loopBody_selectFail env s _ hw]
      exact hselect s hP hst hc hw
    by_cases hm : m = 1
    swap
    · rw [loopBody_readFail env s m b hw hm]
      exact hread s m b hP hst hr hc hw hm
    subst hm
    by_cases hd : s.data ≠ b ∨ s.count < 1
    · by_cases hk : env.writeRet (s.writes + 1) 2 = 2
      · rw [loopBody_change env s b hw hd hk] at hsome
        exact absurd hst hsome
      · rw [loopBody_changeFail env s b hw hd hk]
        exact hchangeFail s b hP hst hr hc hw hd hk
    · rw [loopBody_same env s b hw hd] at hsome
      exact absurd hst hsome
  · rintro s ⟨hP, hst⟩ hc
    by_cases hw : env.writeRet s.writes 1 = 1
    · rw [loopBody_blocked env s hw]
      exact hblock s hP hst hc hw
    · rw [loopBody_selectFail env s _ hw]
      exact hselect s hP hst hc hw
  · rintro s ⟨hP, hst⟩ hc
    by_cases hw : env.writeRet s.writes 4 = 4
    · rw [teardown_ok env s hw]
      exact htear s hP hst hc hw
    · rw [teardown_fail env s hw]
      exact htearFail s hP hst hc hw

/-! ## The end of a run -/

theorem main_end (env : Env) (d0 : Byte) :
    (leftLoop (main env d0) ↔ teardownIssued (main env d0).trace) ∧
    (leftLoop (main env d0) → TeardownShape env (main env d0)) := by
  apply main_induct env d0 (fun s => s.fd = env.openRet ∧ ¬ teardownIssued s.trace)
    (fun s => (leftLoop s ↔ teardownIssued s.trace) ∧ (leftLoop s → TeardownShape env s))
  case htear =>
    rintro s ⟨hfd, hP⟩ _ hc hw
    refine ⟨⟨fun _ => ⟨s.fd, 4, by simp⟩, fun _ => hc⟩, fun _ => ⟨s.trace, 4, hP, ?_, ?_⟩⟩
    · simp [hfd]
    · simp
  case htearFail =>
    rintro s ⟨hfd, hP⟩ _ hc hw
    refine ⟨⟨fun _ => ⟨s.fd, env.writeRet s.writes 4, by simp⟩, fun _ => hc⟩,
      fun _ => ⟨s.trace, env.writeRet s.writes 4, hP, ?_, ?_⟩⟩
    · simp [hfd, hw]
    · simp [hw]
  all_goals intros
  all_goals simp_all [leftLoop, teardownIssued, LIMIT, IODIRA, GPIOA, GPIOB, GPPUA]

/-! ## Failed transfers -/

theorem main_failFast (env : Env) (d0 : Byte) :
    FailFast (main env d0) ∧ ∀ e ∈ (main env d0).trace, declared e := by
  apply main_induct env d0 (fun s => (∀ e ∈ s.trace, ¬ failed e) ∧ ∀ e ∈ s.trace, declared e)
    (fun s => FailFast s ∧ ∀ e ∈ s.trace, declared e)
  case hsetup =>
    intro _ _ hw
    refine ⟨Or.inr ⟨[Event.sysOpen DEVICE env.openRet,
      Event.ioctl env.openRet ADDRESS env.ioctlRet], _, rfl, ?_, ?_, rfl⟩, ?_⟩
    · simpa [failed] using hw
    · simp [failed]
    · simp [declared]
  case hpullup =>
    intro _ _ _ hw
    refine ⟨Or.inr ⟨[Event.sysOpen DEVICE env.openRet,
      Event.ioctl env.openRet ADDRESS env.ioctlRet,
      Event.write env.openRet [IODIRA, 0xFF, 0x00, 0xFF] 4], _, rfl, ?_, ?_, rfl⟩, ?_⟩
    · simpa [failed] using hw
    · simp [failed]
    · simp [declared]
  case hselect =>
    rintro s ⟨hP, hD⟩ _ _ hw
    refine ⟨Or.inr ⟨s.trace, _, rfl, ?_, hP, rfl⟩, ?_⟩
    · simpa [failed] using hw
    · exact List.forall_mem_append.mpr ⟨hD, by simp [declared]⟩
  case hread =>
    rintro s m b ⟨hP, hD⟩ _ _ _ _ hm
    refine ⟨Or.inr ⟨s.trace ++ [Event.write s.fd [GPIOA] 1], Event.read s.fd 1 m b,
      by simp [errorMessage], ?_, ?_, rfl⟩, ?_⟩
    · simpa [failed] using hm
    · exact List.forall_mem_append.mpr ⟨hP, by simp [failed]⟩
    · exact List.forall_mem_append.mpr ⟨hD, by simp [declared]⟩
  case hchangeFail =>
    rintro s b ⟨hP, hD⟩ _ _ _ _ _ hk
    refine ⟨Or.inr ⟨s.trace ++ [Event.write s.fd [GPIOA] 1, Event.read s.fd 1 1 b],
      Event.write s.fd [GPIOB, b] (env.writeRet (s.writes + 1) 2),
      by simp [errorMessage], ?_, ?_, rfl⟩, ?_⟩
    · simpa [failed] using hk
    · exact List.forall_mem_append.mpr ⟨hP, by simp [failed]⟩
    · exact List.forall_mem_append.mpr ⟨hD, by simp [declared]⟩
  case htearFail =>
    rintro s ⟨hP, hD⟩ _ _ hw
    refine ⟨Or.inr ⟨s.trace, _, rfl, ?_, hP, rfl⟩, ?_⟩
    · simpa [failed] using hw
    · exact List.forall_mem_append.mpr ⟨hD, by simp [declared]⟩
  case hopen =>
    intro _
    exact ⟨Or.inl (by simp [failed]), by simp [declared]⟩
  case hioctl =>
    intro _ _
    exact ⟨Or.inl (by simp [failed]), by simp [declared]⟩
  case hinit =>
    intro _ _ _ _
    exact ⟨by simp [failed], by simp [declared]⟩
  case hblock =>
    rintro s ⟨hP, hD⟩ _ _ _
    exact ⟨Or.inl (List.forall_mem_append.mpr ⟨hP, by simp [failed]⟩), List.forall_mem_append.mpr ⟨hD, by simp [declared]⟩⟩
  case hsame =>
    rintro s b ⟨hP, hD⟩ _ _ _ _ _ _
    exact ⟨List.forall_mem_append.mpr ⟨hP, by simp [failed]⟩, List.forall_mem_append.mpr ⟨hD, by simp [declared]⟩⟩
  case hchange =>
    rintro s b ⟨hP, hD⟩ _ _ _ _ _ _
    exact ⟨List.forall_mem_append.mpr ⟨hP, by simp [failed]⟩, List.forall_mem_append.mpr ⟨hD, by simp [declared]⟩⟩
  case htear =>
    rintro s ⟨hP, hD⟩ _ _ _
    exact ⟨Or.inl (List.forall_mem_append.mpr ⟨hP, by simp [failed]⟩), List.forall_mem_append.mpr ⟨hD, by simp [declared]⟩⟩

/-! ## Pass-through -/

theorem passThrough_append {tr new : List Event} (h1 : PassThrough tr)
    (h2 : PassThrough new) : PassThrough (tr ++ new) := by
  intro pre post fd buf ret h hb
  rcases List.append_eq_append_iff.mp h with ⟨a, hpre, hnew⟩ | ⟨c, htr, hpost⟩
  · obtain ⟨q, b, hq, hbuf⟩ := h2 a post fd buf ret hnew hb
    exact ⟨tr ++ q, b, by rw [hpre, hq, List.append_assoc], hbuf⟩
  · rcases c with _ | ⟨x, c⟩
    · obtain ⟨q, b, hq, -⟩ := h2 [] post fd buf ret (by simpa using hpost.symm) hb
      simp at hq
    · simp only [List.cons_append, List.cons.injEq] at hpost
      obtain ⟨hx, -⟩ := hpost
      subst hx
      exact h1 pre c fd buf ret htr hb

theorem passThrough_of_noPortB {new : List Event} (h : ∀ e ∈ new, ¬ isPortBWrite e) :
    PassThrough new := by
  intro pre post fd buf ret hsplit hb
  refine absurd hb (h (Event.write fd buf ret) ?_)
  rw [hsplit]
  simp

theorem passThrough_change (fd : Int) (b : Byte) (k : Int) :
    PassThrough [Event.write fd [GPIOA] 1, Event.read fd 1 1 b,
      Event.write fd [GPIOB, b] k] := by
  intro pre post fd' buf ret h hb
  simp only [List.cons_eq_append_iff, List.cons.injEq, Event.write.injEq, reduceCtorEq,
    false_and, and_false, exists_false, or_false, false_or, List.nil_eq,
    List.append_eq_nil, and_true] at h
  rcases h with ⟨-, ⟨-, rfl, -⟩, -⟩ | ⟨a, rfl, c, rfl, rfl, ⟨rfl, rfl, -⟩, -⟩
  · exact absurd hb (by decide)
  · exact ⟨[Event.write fd' [GPIOA] 1], b, rfl, rfl⟩

theorem main_passThrough (env : Env) (d0 : Byte) : PassThrough (main env d0).trace := by
  apply main_induct env d0 (fun s => PassThrough s.trace) (fun s => PassThrough s.trace)
  case hchange =>
    intro s b hP _ _ _ _ _ _
    exact passThrough_append hP (passThrough_append (passThrough_change s.fd b 2)
      (passThrough_of_noPortB (by simp [isPortBWrite])))
  case hchangeFail =>
    intro s b hP _ _ _ _ _ _
    exact passThrough_append hP (passThrough_append (passThrough_change s.fd b _)
      (passThrough_of_noPortB (by simp [isPortBWrite])))
  case hopen | hioctl | hsetup | hpullup | hinit =>
    intros
    exact passThrough_of_noPortB (by simp [isPortBWrite, IODIRA, GPPUA, GPIOB])
  all_goals
    intros
    refine passThrough_append (by assumption) (passThrough_of_noPortB ?_)
    simp [isPortBWrite, IODIRA, GPIOA, GPIOB]

/-! ## Console output -/

theorem printf_small (k : Nat) (hk : k < 10) :
    printf_4_2u k = [' ', ' ', Nat.digitChar (k / 10), Nat.digitChar (k % 10)] := by
  interval_cases k <;> rfl

theorem asUnsigned_small (n : Nat) (hn : n < 10) : asUnsigned (n : Int) = n := by
  unfold asUnsigned
  omega

theorem consoleLines_append (ws : List Byte) (b : Byte) :
    ∀ k, consoleLines k (ws ++ [b]) = consoleLines k ws ++ consoleLine (k + ws.length) b := by
  induction ws with
  | nil => intro k; simp [consoleLines]
  | cons w ws ih =>
    intro k
    have hk : k + 1 + ws.length = k + (ws.length + 1) := by omega
    show consoleLine k w ++ consoleLines (k + 1) (ws ++ [b]) =
      (consoleLine k w ++ consoleLines (k + 1) ws) ++ consoleLine (k + (ws.length + 1)) b
    rw [ih (k + 1), hk, List.append_assoc]

theorem main_console (env : Env) (d0 : Byte) (hok : AllOk env) :
    console (main env d0).trace = consoleLines 0 (portBWrites (main env d0).trace) := by
  obtain ⟨ho, hi, hw, hr⟩ := hok
  have key : console (main env d0).trace = consoleLines 0 (portBWrites (main env d0).trace) ∧
      CountInv (main env d0) := by
    apply main_induct env d0
      (fun s => console s.trace = consoleLines 0 (portBWrites s.trace) ∧ CountInv s)
      (fun s => console s.trace = consoleLines 0 (portBWrites s.trace) ∧ CountInv s)
    case hchange =>
      rintro s b ⟨hP, h0, h1, h2⟩ _ _ hc _ _ _
      have hlen : (portBWrites s.trace).length < 10 := by
        simp only [LIMIT] at hc
        omega
      have hcount : asUnsigned s.count = (portBWrites s.trace).length := by
        rw [h2]
        exact asUnsigned_small _ hlen
      refine ⟨?_, ?_⟩
      · have hB : portBWrites (s.trace ++ [Event.write s.fd [GPIOA] 1, Event.read s.fd 1 1 b,
            Event.write s.fd [GPIOB, b] 2, Event.stdout (dumpbin b),
            Event.stdout (printf_4_2u (asUnsigned s.count) ++ ['\n']),
            Event.usleep DELAY]) = portBWrites s.trace ++ [b] := by
          simp [portBWrites, portBValue, GPIOA, GPIOB]
        have hC : console (s.trace ++ [Event.write s.fd [GPIOA] 1, Event.read s.fd 1 1 b,
            Event.write s.fd [GPIOB, b] 2, Event.stdout (dumpbin b),
            Event.stdout (printf_4_2u (asUnsigned s.count) ++ ['\n']),
            Event.usleep DELAY]) = console s.trace ++
              (dumpbin b ++ printf_4_2u (asUnsigned s.count) ++ ['\n']) := by
          simp [console, consoleText]
        show console (s.trace ++ _) = consoleLines 0 (portBWrites (s.trace ++ _))
        rw [hB, hC, consoleLines_append, hP, hcount, printf_small _ hlen, dumpbin_eq,
          Nat.zero_add]
        rfl
      · have hB : portBWrites (s.trace ++ [Event.write s.fd [GPIOA] 1, Event.read s.fd 1 1 b,
            Event.write s.fd [GPIOB, b] 2, Event.stdout (dumpbin b),
            Event.stdout (printf_4_2u (asUnsigned s.count) ++ ['\n']),
            Event.usleep DELAY]) = portBWrites s.trace ++ [b] := by
          simp [portBWrites, portBValue, GPIOA, GPIOB]
        refine ⟨?_, ?_, ?_⟩
        · show 0 ≤ s.count + 1
          omega
        · show s.count + 1 ≤ LIMIT
          omega
        · show s.count + 1 = ((portBWrites (s.trace ++ _)).length : Int)
          rw [hB, List.length_append, h2]
          simp
    all_goals intros
    all_goals simp_all [CountInv, console, consoleText, portBWrites, portBValue, LIMIT,
      IODIRA, GPIOA, GPIOB, GPPUA, consoleLines]
    all_goals first
      | omega
      | exact absurd (hr _ _ (by assumption)) (by assumption)
  exact key.1

/-! ## Change detection -/

theorem collapse_eq_destutter (rs : List Byte) :
    collapse rs = List.destutter (fun a b => a ≠ b) rs := by
  have h : ∀ (l : List Byte) (a : Byte),
      a :: changesAfter a l = List.destutter' (fun a b => a ≠ b) a l := by
    intro l
    induction l with
    | nil => intro a; rfl
    | cons b l ih =>
      intro a
      by_cases hab : a = b
      · subst hab
        simp [changesAfter, List.destutter', ih]
      · simp [changesAfter, List.destutter', hab, ih]
  cases rs with
  | nil => rfl
  | cons b rest => exact h rest b

theorem main_ok (env : Env) (d0 : Byte) (ho : 0 ≤ env.openRet) (hi : 0 ≤ env.ioctlRet)
    (h4 : env.writeRet 0 4 = 4) (h2 : env.writeRet 1 2 = 2) :
    main env d0 = whileLoop env (loopStart env d0) env.reads := by
  simp [main, loopStart, not_lt.mpr ho, not_lt.mpr hi, h4, h2, emit, logWrite]

theorem allOk_okEnv (rs : List Byte) : AllOk (okEnv rs) := by
  refine ⟨by simp [okEnv], by simp [okEnv], fun _ _ => rfl, ?_⟩
  intro r hr
  simp only [okEnv, List.mem_map] at hr
  obtain ⟨b, -, rfl⟩ := hr
  rfl

theorem whileLoop_portB (env : Env) (hw : ∀ i n, env.writeRet i n = n) :
    ∀ (reads : List (Int × Byte)) (s : State), (∀ r ∈ reads, r.1 = 1) → s.status = none →
      0 ≤ s.count → s.count ≤ LIMIT →
      portBWrites (whileLoop env s reads).trace =
        portBWrites s.trace ++
          (pending s (reads.map Prod.snd)).take (LIMIT - s.count).toNat := by
  intro reads
  induction reads with
  | nil =>
    intro s _ hst h0 h1
    have hp : pending s [] = [] := by
      unfold pending
      split_ifs <;> rfl
    by_cases hc : s.count < LIMIT
    · simp [whileLoop, hc, loopBody_blocked env s (hw _ _), hp, portBWrites,
        portBValue, List.filterMap_append]
    · simp [whileLoop, hc, teardown_ok env s (hw _ _), hp, portBWrites,
        portBValue, List.filterMap_append, IODIRA, GPIOB]
  | cons r rest ih =>
    rintro s hr hst h0 h1
    obtain ⟨m, b⟩ := r
    have hm : m = 1 := hr (m, b) (List.mem_cons_self _ _)
    subst hm
    have hrest : ∀ r ∈ rest, r.1 = 1 := fun r h => hr r (List.mem_cons_of_mem _ h)
    by_cases hc : s.count < LIMIT
    · by_cases hd : s.data ≠ b ∨ s.count < 1
      · have hbody := loopBody_change env s b (hw _ _) hd (hw _ _)
        have hnone : (loopBody env s (some (1, b))).status = none := by
          rw [hbody]
          exact hst
        simp only [whileLoop, hc, hnone, if_true]
        rw [hbody]
        have hc' : s.count < 10 := hc
        have hp : pending s (b :: rest.map Prod.snd) = b :: changesAfter b (rest.map Prod.snd) := by
          unfold pending
          by_cases h1' : s.count < 1
          · simp [h1', collapse]
          · have hne : s.data ≠ b := hd.resolve_right h1'
            simp [h1', changesAfter, hne]
        have hn : (LIMIT - s.count).toNat = (LIMIT - (s.count + 1)).toNat + 1 := by
          simp only [LIMIT]
          omega
        have h := ih { s with
            count := s.count + 1, data := b,
            trace := s.trace ++ [Event.write s.fd [GPIOA] 1, Event.read s.fd 1 1 b,
              Event.write s.fd [GPIOB, b] 2, Event.stdout (dumpbin b),
              Event.stdout (printf_4_2u (asUnsigned s.count) ++ ['\n']),
              Event.usleep DELAY],
            writes := s.writes + 2 } hrest hst (by show 0 ≤ s.count + 1; omega)
          (by show s.count + 1 ≤ LIMIT; simp only [LIMIT]; omega)
        rw [h]
        have hpend : pending { s with
            count := s.count + 1, data := b,
            trace := s.trace ++ [Event.write s.fd [GPIOA] 1, Event.read s.fd 1 1 b,
              Event.write s.fd [GPIOB, b] 2, Event.stdout (dumpbin b),
              Event.stdout (printf_4_2u (asUnsigned s.count) ++ ['\n']),
              Event.usleep DELAY],
            writes := s.writes + 2 } (rest.map Prod.snd) = changesAfter b (rest.map Prod.snd) := by
          unfold pending
          have : ¬ s.count + 1 < 1 := by omega
          simp [this]
        rw [hpend, List.map_cons, hp, hn, List.take_succ_cons]
        simp [portBWrites, portBValue, List.filterMap_append, GPIOA, GPIOB]
      · have hbody := loopBody_same env s b (hw _ _) hd
        have hnone : (loopBody env s (some (1, b))).status = none := by
          rw [hbody]
          exact hst
        simp only [whileLoop, hc, hnone, if_true]
        rw [hbody]
        have hd1 : s.data = b := by
          by_contra hx
          exact hd (Or.inl hx)
        have hd2 : ¬ s.count < 1 := fun hx => hd (Or.inr hx)
        have h := ih { s with
            trace := s.trace ++ [Event.write s.fd [GPIOA] 1, Event.read s.fd 1 1 b],
            writes := s.writes + 1 } hrest hst h0 h1
        rw [h]
        have hpend : pending { s with
            trace := s.trace ++ [Event.write s.fd [GPIOA] 1, Event.read s.fd 1 1 b],
            writes := s.writes + 1 } (rest.map Prod.snd) =
              pending s (b :: rest.map Prod.snd) := by
          unfold pending
          simp [hd2, changesAfter, hd1]
        rw [hpend, List.map_cons]
        simp [portBWrites, portBValue, List.filterMap_append, GPIOA, GPIOB]
    · simp only [whileLoop, hc, if_false]
      rw [teardown_ok env s (hw _ _)]
      have hz : (LIMIT - s.count).toNat = 0 := by
        simp only [LIMIT] at hc h1 ⊢
        omega
      simp [hz, portBWrites, portBValue, List.filterMap_append, IODIRA, GPIOB]

/-! ## Runs in which every call succeeds -/

theorem main_countInv (env : Env) (d0 : Byte) (hw : ∀ i n, env.writeRet i n = n) :
    CountInv (main env d0) ∧ (teardownIssued (main env d0).trace → (main env d0).count = 10) := by
  refine main_induct env d0 (fun s => CountInv s ∧ ¬ teardownIssued s.trace)
    (fun s => CountInv s ∧ (teardownIssued s.trace → s.count = 10))
    ?_ ?_ ?_ ?_ ?_ ?_ ?_ ?_ ?_ ?_ ?_ ?_ ?_
  all_goals intros
  all_goals simp_all [CountInv, teardownIssued, portBWrites, portBValue, LIMIT, IODIRA, GPIOA, GPIOB, GPPUA]
  all_goals omega

theorem countInv_step (env : Env) (hw : ∀ i n, env.writeRet i n = n) (s : State)
    (r : Option (Int × Byte)) (h : CountInv s) (hc : s.count < LIMIT) :
    CountInv (loopBody env s r) := by
  obtain ⟨h0, h1, h2⟩ := h
  have hc' : s.count < 10 := hc
  rcases r with _ | ⟨m, b⟩
  · rw [loopBody_blocked env s (hw _ _)]
    simpa [CountInv, portBWrites, portBValue, List.filterMap_append, GPIOA, GPIOB]
      using ⟨h0, h1, h2⟩
  · by_cases hm : m = 1
    · subst hm
      by_cases hd : s.data ≠ b ∨ s.count < 1
      · rw [loopBody_change env s b (hw _ _) hd (hw _ _)]
        have hB : portBWrites (s.trace ++ [Event.write s.fd [GPIOA] 1, Event.read s.fd 1 1 b,
            Event.write s.fd [GPIOB, b] 2, Event.stdout (dumpbin b),
            Event.stdout (printf_4_2u (asUnsigned s.count) ++ ['\n']),
            Event.usleep DELAY]) = portBWrites s.trace ++ [b] := by
          simp [portBWrites, portBValue, GPIOA, GPIOB]
        refine ⟨?_, ?_, ?_⟩
        · show 0 ≤ s.count + 1
          omega
        · show s.count + 1 ≤ LIMIT
          simp only [LIMIT]
          omega
        · show s.count + 1 = ((portBWrites (s.trace ++ _)).length : Int)
          rw [hB, List.length_append, h2]
          simp
      · rw [loopBody_same env s b (hw _ _) hd]
        simpa [CountInv, portBWrites, portBValue, List.filterMap_append, GPIOA, GPIOB]
          using ⟨h0, h1, h2⟩
    · rw [loopBody_readFail env s m b (hw _ _) hm]
      simpa [CountInv, portBWrites, portBValue, List.filterMap_append, GPIOA, GPIOB]
        using ⟨h0, h1, h2⟩

theorem main_status (env : Env) (d0 : Byte) (hok : AllOk env) :
    ((main env d0).status = some 0 ∧ (main env d0).count = 10) ∨
    ((main env d0).status = none ∧ (main env d0).count < 10) := by
  obtain ⟨ho, hi, hw, hr⟩ := hok
  apply main_induct env d0 (fun s => s.count ≤ 10)
    (fun s => (s.status = some 0 ∧ s.count = 10) ∨ (s.status = none ∧ s.count < 10))
  all_goals intros
  all_goals simp_all [LIMIT]
  all_goals first
    | omega
    | exact absurd (hr _ _ (by assumption)) (by assumption)

theorem whileLoop_reads (env : Env) (hw : ∀ i n, env.writeRet i n = n) :
    ∀ (reads : List (Int × Byte)) (s : State), (∀ r ∈ reads, r.1 = 1) → s.status = none →
      ∃ unread, portAReads s.trace ++ reads.map Prod.snd =
          portAReads (whileLoop env s reads).trace ++ unread ∧
        ((whileLoop env s reads).status = none → unread = []) := by
  intro reads
  induction reads with
  | nil =>
    intro s _ hst
    refine ⟨[], ?_, fun _ => rfl⟩
    by_cases hc : s.count < LIMIT
    · simp [whileLoop, hc, loopBody_blocked env s (hw _ _), portAReads, readValue,
        List.filterMap_append]
    · simp [whileLoop, hc, teardown_ok env s (hw _ _), portAReads, readValue,
        List.filterMap_append]
  | cons r rest ih =>
    rintro s hr hst
    obtain ⟨m, b⟩ := r
    have hm : m = 1 := hr (m, b) (List.mem_cons_self _ _)
    subst hm
    have hrest : ∀ r ∈ rest, r.1 = 1 := fun r h => hr r (List.mem_cons_of_mem _ h)
    by_cases hc : s.count < LIMIT
    · by_cases hd : s.data ≠ b ∨ s.count < 1
      · have hbody := loopBody_change env s b (hw _ _) hd (hw _ _)
        have hnone : (loopBody env s (some (1, b))).status = none := by
          rw [hbody]
          exact hst
        simp only [whileLoop, hc, hnone, if_true]
        rw [hbody]
        obtain ⟨unread, h1, h2⟩ := ih { s with
            count := s.count + 1, data := b,
            trace := s.trace ++ [Event.write s.fd [GPIOA] 1, Event.read s.fd 1 1 b,
              Event.write s.fd [GPIOB, b] 2, Event.stdout (dumpbin b),
              Event.stdout (printf_4_2u (asUnsigned s.count) ++ ['\n']),
              Event.usleep DELAY],
            writes := s.writes + 2 } hrest hst
        refine ⟨unread, ?_, h2⟩
        rw [← h1]
        simp [portAReads, readValue, List.filterMap_append]
      · have hbody := loopBody_same env s b (hw _ _) hd
        have hnone : (loopBody env s (some (1, b))).status = none := by
          rw [hbody]
          exact hst
        simp only [whileLoop, hc, hnone, if_true]
        rw [hbody]
        obtain ⟨unread, h1, h2⟩ := ih { s with
            trace := s.trace ++ [Event.write s.fd [GPIOA] 1, Event.read s.fd 1 1 b],
            writes := s.writes + 1 } hrest hst
        refine ⟨unread, ?_, h2⟩
        rw [← h1]
        simp [portAReads, readValue, List.filterMap_append]
    · simp only [whileLoop, hc, if_false]
      rw [teardown_ok env s (hw _ _)]
      refine ⟨b :: rest.map Prod.snd, ?_, ?_⟩
      · simp [portAReads, readValue, List.filterMap_append]
      · intro h
        simp at h

/-! ## The initial value of `data` -/

theorem agree_refl (s : State) : Agree s s :=
  ⟨rfl, rfl, rfl, rfl, rfl, Or.inl rfl⟩

theorem loopBody_agree (env : Env) (s t : State) (r : Option (Int × Byte))
    (h : Agree s t) : Agree (loopBody env s r) (loopBody env t r) := by
  obtain ⟨c1, f1, w1, t1, st1, d1⟩ := h
  obtain ⟨count, data, fd, writes, trace, status⟩ := s
  obtain ⟨count', data', fd', writes', trace', status'⟩ := t
  simp only at c1 f1 w1 t1 st1 d1
  subst c1 f1 w1 t1 st1
  rcases d1 with d1 | d1
  · subst d1
    exact agree_refl _
  · rcases r with _ | ⟨m, b⟩
    · simp only [loopBody, logWrite, die]
      split_ifs <;> simp [Agree, d1]
    · simp only [loopBody, logWrite, die, emit, d1, or_true, if_true]
      split_ifs <;> simp [Agree, d1]

theorem teardown_agree (env : Env) (s t : State) (h : Agree s t) :
    Agree (teardown env s) (teardown env t) := by
  obtain ⟨c1, f1, w1, t1, st1, d1⟩ := h
  simp only [teardown, logWrite, die, emit, ← w1, ← f1, ← t1]
  split_ifs <;> exact ⟨c1, rfl, rfl, rfl, rfl, d1⟩

theorem whileLoop_agree (env : Env) :
    ∀ (rs : List (Int × Byte)) (s t : State), Agree s t →
      Agree (whileLoop env s rs) (whileLoop env t rs) := by
  intro rs
  induction rs with
  | nil =>
    intro s t h
    have hc : s.count = t.count := h.1
    simp only [whileLoop, ← hc]
    split_ifs
    · exact loopBody_agree env s t none h
    · exact teardown_agree env s t h
  | cons r rest ih =>
    intro s t h
    have hc : s.count = t.count := h.1
    have hb := loopBody_agree env s t (some r) h
    have hst : (loopBody env s (some r)).status = (loopBody env t (some r)).status := hb.2.2.2.2.1
    simp only [whileLoop, ← hc, ← hst]
    split_ifs
    · exact ih _ _ hb
    · exact hb
    · exact teardown_agree env s t h

theorem main_agree (env : Env) (d0 d1 : Byte) : Agree (main env d0) (main env d1) := by
  simp only [main, emit, logWrite, die]
  split_ifs
  any_goals simp [Agree]
  exact whileLoop_agree env _ _ _ (by simp [Agree])

theorem loopBody_extends (env : Env) (s : State) (r : Option (Int × Byte)) :
    ∃ post, (loopBody env s r).trace = s.trace ++ post := by
  rcases r with _ | ⟨m, b⟩
  · simp only [loopBody, logWrite, die]
    split_ifs <;> (try simp only [List.append_assoc]) <;> exact ⟨_, rfl⟩
  · simp only [loopBody, logWrite, die, emit]
    split_ifs <;> (try simp only [List.append_assoc]) <;> exact ⟨_, rfl⟩

theorem teardown_extends (env : Env) (s : State) :
    ∃ post, (teardown env s).trace = s.trace ++ post := by
  simp only [teardown, logWrite, die, emit]
  split_ifs <;> simp only [List.append_assoc] <;> exact ⟨_, rfl⟩

theorem whileLoop_extends (env : Env) :
    ∀ (rs : List (Int × Byte)) (s : State),
      ∃ post, (whileLoop env s rs).trace = s.trace ++ post := by
  intro rs
  induction rs with
  | nil =>
    intro s
    simp only [whileLoop]
    split_ifs
    · exact loopBody_extends env s none
    · exact teardown_extends env s
  | cons r rest ih =>
    intro s
    simp only [whileLoop]
    split_ifs
    · obtain ⟨p1, h1⟩ := loopBody_extends env s (some r)
      obtain ⟨p2, h2⟩ := ih (loopBody env s (some r))
      exact ⟨p1 ++ p2, by rw [h2, h1, List.append_assoc]⟩
    · exact loopBody_extends env s (some r)
    · exact teardown_extends env s

/-! ## Claims -/

/-- C3: for every byte `b`, `dumpbin b` emits exactly ten characters: bits 7 down
to 4 of `b` as `'0'`/`'1'`, a space, bits 3 down to 0, and a trailing space; in
particular `dumpbin 0x00` emits `"0000 0000 "` and `dumpbin 0xFF` emits
`"1111 1111 "`. -/
theorem dumpbin_format (b : Byte) :
    dumpbin b = [bitChar b 7, bitChar b 6, bitChar b 5, bitChar b 4, ' ',
      bitChar b 3, bitChar b 2, bitChar b 1, bitChar b 0, ' '] ∧
    (dumpbin b).length = 10 ∧
    dumpbin 0x00 = "0000 0000 ".toList ∧
    dumpbin 0xFF = "1111 1111 ".toList := by
  refine ⟨dumpbin_eq b, ?_, by decide, by decide⟩
  rw [dumpbin_eq]
  rfl

/-- C2: with all I/O succeeding, the counter stays between 0 and `LIMIT = 10`
and equals the number of writes to port B performed so far: this holds when the
loop is first entered, every pass through the loop body started with
`count < LIMIT` preserves it, and it holds in the state in which a run on any
sequence of read results ends or waits; and a run that has issued the teardown
write has performed exactly 10 writes to port B. -/
theorem counter_bound (env : Env) (d0 : Byte) (hok : AllOk env) :
    CountInv (loopStart env d0) ∧
    (∀ (s : State) (r : Option (Int × Byte)), CountInv s → s.count < LIMIT →
      CountInv (loopBody env s r)) ∧
    0 ≤ (main env d0).count ∧ (main env d0).count ≤ LIMIT ∧
    (main env d0).count = (portBWrites (main env d0).trace).length ∧
    (teardownIssued (main env d0).trace → (portBWrites (main env d0).trace).length = 10) := by
  obtain ⟨_, _, hw, _⟩ := hok
  obtain ⟨⟨h0, h1, h2⟩, h3⟩ := main_countInv env d0 hw
  refine ⟨?_, fun s r h hc => countInv_step env hw s r h hc, h0, h1, h2, fun ht => ?_⟩
  · simp [CountInv, loopStart, portBWrites, portBValue, LIMIT, IODIRA, GPPUA, GPIOB]
  · have := h3 ht
    omega

/-- C2 witness: the run on ten changing readings, which issues the teardown
write after exactly ten writes to port B. -/
theorem counter_bound_witness :
    AllOk (okEnv tenChanges) ∧
    (0 ≤ (main (okEnv tenChanges) 0).count ∧ (main (okEnv tenChanges) 0).count ≤ LIMIT ∧
      (main (okEnv tenChanges) 0).count = (portBWrites (main (okEnv tenChanges) 0).trace).length ∧
      (teardownIssued (main (okEnv tenChanges) 0).trace →
        (portBWrites (main (okEnv tenChanges) 0).trace).length = 10)) ∧
    (portBWrites (main (okEnv tenChanges) 0).trace).length = 10 :=
  ⟨allOk_okEnv tenChanges,
    (counter_bound (okEnv tenChanges) 0 (allOk_okEnv tenChanges)).2.2, by decide⟩

/-- C1: in every run, every write whose buffer starts with `GPIOB` is exactly
the two bytes `[GPIOB, b]` and comes right after a one-byte read that returned
`b`; and every pass through the loop body whose read returns a byte `b` that
differs from `data`, or that happens while `count < 1` (the first pass), issues
the write `[GPIOB, b]` right after that read. -/
theorem pass_through_identity (env : Env) (d0 : Byte) :
    (∀ pre post fd buf ret, (main env d0).trace = pre ++ Event.write fd buf ret :: post →
      buf.head? = some GPIOB →
      ∃ pre' b, pre = pre' ++ [Event.read fd 1 1 b] ∧ buf = [GPIOB, b]) ∧
    (∀ (s : State) (b : Byte), env.writeRet s.writes 1 = 1 → (s.data ≠ b ∨ s.count < 1) →
      ∃ post, (loopBody env s (some (1, b))).trace =
        s.trace ++ [Event.write s.fd [GPIOA] 1, Event.read s.fd 1 1 b,
          Event.write s.fd [GPIOB, b] (env.writeRet (s.writes + 1) 2)] ++ post) := by
  refine ⟨main_passThrough env d0, ?_⟩
  intro s b hw hd
  by_cases hk : env.writeRet (s.writes + 1) 2 = 2
  · rw [loopBody_change env s b hw hd hk, hk]
    exact ⟨[Event.stdout (dumpbin b),
      Event.stdout (printf_4_2u (asUnsigned s.count) ++ ['\n']), Event.usleep DELAY],
      by simp⟩
  · rw [loopBody_changeFail env s b hw hd hk]
    exact ⟨[Event.stdout "Error writing data\n".toList], by simp⟩

/-- C1 witness: the run on the single reading `7`, whose write to port B sits
between `sevenBefore` and `sevenAfter`, and the first pass through the loop. -/
theorem pass_through_identity_witness :
    ((main (okEnv [7]) 0).trace = sevenBefore ++ Event.write 3 [GPIOB, 7] 2 :: sevenAfter ∧
      ([GPIOB, 7] : List Byte).head? = some GPIOB ∧
      ∃ pre' b, sevenBefore = pre' ++ [Event.read 3 1 1 b] ∧ ([GPIOB, 7] : List Byte) = [GPIOB, b]) ∧
    ((okEnv [7]).writeRet (loopStart (okEnv [7]) 0).writes 1 = 1 ∧
      ((loopStart (okEnv [7]) 0).data ≠ 7 ∨ (loopStart (okEnv [7]) 0).count < 1) ∧
      ∃ post, (loopBody (okEnv [7]) (loopStart (okEnv [7]) 0) (some (1, 7))).trace =
        (loopStart (okEnv [7]) 0).trace ++
          [Event.write (loopStart (okEnv [7]) 0).fd [GPIOA] 1,
            Event.read (loopStart (okEnv [7]) 0).fd 1 1 7,
            Event.write (loopStart (okEnv [7]) 0).fd [GPIOB, 7]
              ((okEnv [7]).writeRet ((loopStart (okEnv [7]) 0).writes + 1) 2)] ++ post) :=
  ⟨⟨by decide, by decide,
      (pass_through_identity (okEnv [7]) 0).1 sevenBefore sevenAfter 3 [GPIOB, 7] 2
        (by decide) (by decide)⟩,
    ⟨rfl, by decide,
      (pass_through_identity (okEnv [7]) 0).2 (loopStart (okEnv [7]) 0) 7 rfl (by decide)⟩⟩

/-- C4: in every run, every device transfer is one of the declared ones (a
four-byte setup or teardown write, a two-byte pull-up or port-B write, a
one-byte register-select write, a one-byte read); and a transfer that returns a
count other than the declared one is followed by the fixed message alone
(`"Error writing data"` for a write, `"Error reading data"` for a read), the run
ends with exit status 1, and no transfer before it had failed. -/
theorem fail_fast (env : Env) (d0 : Byte) (e : Event) (he : e ∈ (main env d0).trace) :
    declared e ∧
    (failed e →
      ∃ pre, (main env d0).trace = pre ++ [e, Event.stdout (errorMessage e)] ∧
        (∀ x ∈ pre, ¬ failed x) ∧ (main env d0).status = some 1) := by
  obtain ⟨hff, hdecl⟩ := main_failFast env d0
  refine ⟨hdecl e he, fun hf => ?_⟩
  rcases hff with hnone | ⟨pre, e', htr, hf', hpre, hst⟩
  · exact absurd hf (hnone e he)
  · rw [htr] at he
    simp only [List.mem_append, List.mem_cons, List.mem_singleton, List.not_mem_nil,
      or_false] at he
    rcases he with he | he | he
    · exact absurd hf (hpre e he)
    · subst he
      exact ⟨pre, htr, hpre, hst⟩
    · subst he
      exact absurd hf (by simp [failed])

/-- C4 witness: the run whose first read returns 0 bytes. -/
theorem fail_fast_witness :
    Event.read 3 1 0 0 ∈ (main envShortRead 0).trace ∧
    declared (Event.read 3 1 0 0) ∧
    failed (Event.read 3 1 0 0) ∧
    ∃ pre, (main envShortRead 0).trace =
        pre ++ [Event.read 3 1 0 0, Event.stdout (errorMessage (Event.read 3 1 0 0))] ∧
      (∀ x ∈ pre, ¬ failed x) ∧ (main envShortRead 0).status = some 1 :=
  ⟨by decide, (fail_fast envShortRead 0 (Event.read 3 1 0 0) (by decide)).1,
    by simp [failed],
    (fail_fast envShortRead 0 (Event.read 3 1 0 0) (by decide)).2 (by simp [failed])⟩

/-- C5: in every run with all I/O succeeding, the console output is exactly one
line per write to port B, in order, and nothing else; line number `k` (the count
starts at 0 and stays below 10) is the byte written as two groups of four bits
each followed by a space, then the count `k` as two digits right-justified in
four columns, then a newline. -/
theorem console_lines (env : Env) (d0 : Byte) (hok : AllOk env) :
    console (main env d0).trace = consoleLines 0 (portBWrites (main env d0).trace) ∧
    (portBWrites (main env d0).trace).length ≤ 10 := by
  refine ⟨main_console env d0 hok, ?_⟩
  obtain ⟨⟨h0, h1, h2⟩, -⟩ := main_countInv env d0 hok.2.2.1
  simp only [LIMIT] at h1
  omega

/-- C5 witness: the run on the readings `0x00, 0xFF`, with its console output. -/
theorem console_lines_witness :
    AllOk (okEnv [0x00, 0xFF]) ∧
    (console (main (okEnv [0x00, 0xFF]) 0).trace =
        consoleLines 0 (portBWrites (main (okEnv [0x00, 0xFF]) 0).trace) ∧
      (portBWrites (main (okEnv [0x00, 0xFF]) 0).trace).length ≤ 10) ∧
    console (main (okEnv [0x00, 0xFF]) 0).trace =
      "0000 0000   00\n1111 1111   01\n".toList :=
  ⟨allOk_okEnv _, console_lines (okEnv [0x00, 0xFF]) 0 (allOk_okEnv _), by decide⟩

/-- C7 (as stated, refuted): three runs in which the device was opened and that
end through a failure path (failed address bind, short write, short read): each
ends with exit status 1 and without any `close`. -/
theorem close_missing_on_failure :
    (0 ≤ envBindFail.openRet ∧ (main envBindFail 0).status = some 1 ∧
      closes (main envBindFail 0).trace = []) ∧
    (0 ≤ envShortWrite.openRet ∧ (main envShortWrite 0).status = some 1 ∧
      closes (main envShortWrite 0).trace = []) ∧
    (0 ≤ envShortRead.openRet ∧ (main envShortRead 0).status = some 1 ∧
      closes (main envShortRead 0).trace = []) := by
  decide

/-- C7 (amended): a run ends with exit status 0 exactly when its last event is
the `close` of the descriptor `open` returned, which is then the only `close`
of the run; a run that ends with exit status 1 or has not ended contains no
`close` at all; and no other exit status occurs. -/
theorem close_on_normal_exit_only (env : Env) (d0 : Byte) :
    ((main env d0).status = some 0 →
      (main env d0).trace.getLast? = some (Event.close env.openRet) ∧
      closes (main env d0).trace = [env.openRet]) ∧
    ((main env d0).status ≠ some 0 → closes (main env d0).trace = []) ∧
    ((main env d0).status = none ∨ (main env d0).status = some 0 ∨
      (main env d0).status = some 1) := by
  refine main_induct env d0 (fun s => s.fd = env.openRet ∧ closes s.trace = [])
    (fun s => (s.status = some 0 →
        s.trace.getLast? = some (Event.close env.openRet) ∧ closes s.trace = [env.openRet]) ∧
      (s.status ≠ some 0 → closes s.trace = []) ∧
      (s.status = none ∨ s.status = some 0 ∨ s.status = some 1))
    ?_ ?_ ?_ ?_ ?_ ?_ ?_ ?_ ?_ ?_ ?_ ?_ ?_
  all_goals intros
  all_goals simp_all [closes, closeValue, List.filterMap_append]

/-- C8 (as stated, refuted): in the run with ten changing readings and all I/O
succeeding, the run is past the loop and its last `write` has four bytes, not
two. -/
theorem teardown_write_has_four_bytes :
    leftLoop (main (okEnv tenChanges) 0) ∧
    (writeBufs (main (okEnv tenChanges) 0).trace).getLast? = some [IODIRA, 0xFF, 0xFF, 0x00] ∧
    ([IODIRA, 0xFF, 0xFF, 0x00] : List Byte).length ≠ 2 := by
  decide

/-- C8 (amended): in every run that leaves the loop, the last device write is
the four-byte write `[IODIRA, 0xFF, 0xFF, 0x00]`, which sets `IODIRA` and
`IODIRB` to `0xFF` and `IPOLA` to `0x00`, and it is issued once; when it
transfers four bytes it is followed by `close` alone and exit status 0, and
otherwise by the error message alone and exit status 1. -/
theorem teardown_write (env : Env) (d0 : Byte) (h : leftLoop (main env d0)) :
    (∃ pre ret, ¬ teardownIssued pre ∧
      (main env d0).trace = pre ++ Event.write env.openRet [IODIRA, 0xFF, 0xFF, 0x00] ret ::
        (if ret = 4 then [Event.close env.openRet]
          else [Event.stdout "Error writing data\n".toList]) ∧
      (main env d0).status = some (if ret = 4 then 0 else 1)) ∧
    (writeBufs (main env d0).trace).getLast? = some [IODIRA, 0xFF, 0xFF, 0x00] ∧
    registerWrites [IODIRA, 0xFF, 0xFF, 0x00] =
      [(IODIRA, 0xFF), (IODIRB, 0xFF), (IPOLA, 0x00)] := by
  have hs : TeardownShape env (main env d0) := (main_end env d0).2 h
  unfold TeardownShape at hs
  refine ⟨hs, ?_, by decide⟩
  obtain ⟨pre, ret, -, htr, -⟩ := hs
  rw [htr]
  by_cases hr : ret = 4 <;>
    simp [hr, writeBufs, writeValue, List.filterMap_append, List.filterMap_cons]

/-- C8 witness: the run with ten changing readings and all I/O succeeding. -/
theorem teardown_write_witness :
    leftLoop (main (okEnv tenChanges) 0) ∧
    (∃ pre ret, ¬ teardownIssued pre ∧
      (main (okEnv tenChanges) 0).trace =
        pre ++ Event.write (okEnv tenChanges).openRet [IODIRA, 0xFF, 0xFF, 0x00] ret ::
          (if ret = 4 then [Event.close (okEnv tenChanges).openRet]
            else [Event.stdout "Error writing data\n".toList]) ∧
      (main (okEnv tenChanges) 0).status = some (if ret = 4 then 0 else 1)) :=
  ⟨by decide, (teardown_write (okEnv tenChanges) 0 (by decide)).1⟩

/-- C7 witness: the run on ten changing readings ends with exit status 0. -/
theorem close_on_normal_exit_only_witness :
    (main (okEnv tenChanges) 0).status = some 0 ∧
    ((main (okEnv tenChanges) 0).trace.getLast? = some (Event.close (okEnv tenChanges).openRet) ∧
      closes (main (okEnv tenChanges) 0).trace = [(okEnv tenChanges).openRet]) :=
  ⟨by decide, (close_on_normal_exit_only (okEnv tenChanges) 0).1 (by decide)⟩

/-- C10: with all I/O succeeding, the values written to port B are the first 10
elements of the sequence of readings with its consecutive repeats collapsed (all
of them when there are fewer than 10); and a pass through the loop body with
`count ≥ 1` whose read returns the byte held in `data` only issues the
register-select write and the read: no write to port B, no console output, no
delay, and `data` and `count` keep their values. -/
theorem change_detection (env : Env) (d0 : Byte) (hok : AllOk env) :
    portBWrites (main env d0).trace = (collapse (env.reads.map Prod.snd)).take 10 ∧
    (∀ (s : State) (b : Byte), 1 ≤ s.count → s.data = b →
      loopBody env s (some (1, b)) =
        { s with
          trace := s.trace ++ [Event.write s.fd [GPIOA] 1, Event.read s.fd 1 1 b],
          writes := s.writes + 1 }) := by
  obtain ⟨ho, hi, hw, hr⟩ := hok
  constructor
  · rw [main_ok env d0 ho hi (hw _ _) (hw _ _),
      whileLoop_portB env hw env.reads (loopStart env d0) hr rfl (by simp [loopStart]) (by simp [loopStart, LIMIT])]
    simp [loopStart, pending, portBWrites, portBValue, LIMIT, IODIRA, GPPUA, GPIOB]
  · intro s b hc hd
    refine loopBody_same env s b (hw _ _) ?_
    rintro (h | h)
    · exact h hd
    · omega

/-- C10 witness: the readings `5, 5, 6, 6, 5` give the writes `5, 6, 5`. -/
theorem change_detection_witness :
    AllOk (okEnv [5, 5, 6, 6, 5]) ∧
    portBWrites (main (okEnv [5, 5, 6, 6, 5]) 0).trace =
      (collapse ((okEnv [5, 5, 6, 6, 5]).reads.map Prod.snd)).take 10 ∧
    portBWrites (main (okEnv [5, 5, 6, 6, 5]) 0).trace = [5, 6, 5] :=
  ⟨allOk_okEnv _, (change_detection (okEnv [5, 5, 6, 6, 5]) 0 (allOk_okEnv _)).1, by decide⟩

/-- C6 (as stated, refuted): with all I/O succeeding and eleven readings of the
same byte, the run has completed eleven reads, more than `LIMIT = 10`, has
written to port B once, and has not left the loop. -/
theorem constant_input_reads_exceed_limit :
    AllOk (okEnv constantReads) ∧
    ¬ (portAReads (main (okEnv constantReads) 0).trace).length ≤ 10 ∧
    (portBWrites (main (okEnv constantReads) 0).trace).length = 1 ∧
    (main (okEnv constantReads) 0).status = none :=
  ⟨allOk_okEnv _, by decide, by decide, by decide⟩

/-- C6 (amended): with all I/O succeeding, every pass through the loop body
issues the one-byte register-select write followed by the one-byte read; the run
writes to port B at most `LIMIT = 10` times; it leaves the loop and ends with
exit status 0 exactly when the readings hold at least 10 changes (their
collapsed sequence has at least 10 elements); with fewer changes it never leaves
the loop, whatever the number of readings, and has read every one of them; and
the readings it has read are always an initial segment of the readings
supplied. -/
theorem loop_ends_after_ten_changes (env : Env) (d0 : Byte) (hok : AllOk env) :
    (portBWrites (main env d0).trace).length ≤ 10 ∧
    ((main env d0).status = some 0 ↔ 10 ≤ (collapse (env.reads.map Prod.snd)).length) ∧
    ((collapse (env.reads.map Prod.snd)).length < 10 →
      (main env d0).status = none ∧
      portAReads (main env d0).trace = env.reads.map Prod.snd) ∧
    (∃ unread, env.reads.map Prod.snd = portAReads (main env d0).trace ++ unread) ∧
    (∀ (s : State) (r : Int × Byte), ∃ post, (loopBody env s (some r)).trace =
      s.trace ++ Event.write s.fd [GPIOA] 1 :: Event.read s.fd 1 r.1 r.2 :: post) := by
  have hok' := hok
  obtain ⟨ho, hi, hw, hr⟩ := hok
  obtain ⟨⟨h0, h1, h2⟩, -⟩ := main_countInv env d0 hw
  have hB : portBWrites (main env d0).trace = (collapse (env.reads.map Prod.snd)).take 10 := by
    rw [main_ok env d0 ho hi (hw _ _) (hw _ _),
      whileLoop_portB env hw env.reads (loopStart env d0) hr rfl (by simp [loopStart]) (by simp [loopStart, LIMIT])]
    simp [loopStart, pending, portBWrites, portBValue, LIMIT, IODIRA, GPPUA, GPIOB]
  have hlen : (portBWrites (main env d0).trace).length =
      min 10 (collapse (env.reads.map Prod.snd)).length := by
    rw [hB, List.length_take]
  obtain ⟨unread, hu1, hu2⟩ := whileLoop_reads env hw env.reads (loopStart env d0) hr rfl
  rw [← main_ok env d0 ho hi (hw _ _) (hw _ _)] at hu1 hu2
  have hstart : portAReads (loopStart env d0).trace = [] := by
    simp [loopStart, portAReads, readValue]
  rw [hstart, List.nil_append] at hu1
  have hst := main_status env d0 hok'
  simp only [LIMIT] at h1
  refine ⟨by omega, ⟨fun h => ?_, fun h => ?_⟩, fun h => ?_, ⟨unread, hu1⟩, ?_⟩
  · rcases hst with ⟨-, hc⟩ | ⟨hn, -⟩
    · omega
    · rw [hn] at h
      exact absurd h (by simp)
  · rcases hst with ⟨hs, -⟩ | ⟨-, hc⟩
    · exact hs
    · omega
  · rcases hst with ⟨-, hc⟩ | ⟨hn, -⟩
    · omega
    · refine ⟨hn, ?_⟩
      rw [hu1, hu2 hn, List.append_nil]
  · rintro s ⟨m, b⟩
    simp only [loopBody, logWrite, die, emit, hw, Nat.cast_one, ne_eq, not_true_eq_false,
      if_false]
    split_ifs <;> simp

/-- C6 witness: on ten changing readings the run leaves the loop with status 0. -/
theorem loop_ends_after_ten_changes_witness :
    AllOk (okEnv tenChanges) ∧
    ((main (okEnv tenChanges) 0).status = some 0 ↔
      10 ≤ (collapse ((okEnv tenChanges).reads.map Prod.snd)).length) ∧
    (main (okEnv tenChanges) 0).status = some 0 :=
  ⟨allOk_okEnv _, (loop_ends_after_ten_changes (okEnv tenChanges) 0 (allOk_okEnv _)).2.1,
    by decide⟩

/-- C9: for any two initial values of `data` and the same results of the system
calls, the two runs have the same trace (hence the same device writes and the
same console output) and the same exit status; and when the setup and the first
register-select write succeed, the first read that returns one byte `b` is
followed at once by the write `[GPIOB, b]`, whatever the initial value. -/
theorem initial_data_irrelevant (env : Env) (d0 d1 : Byte) :
    (main env d0).trace = (main env d1).trace ∧
    (main env d0).status = (main env d1).status ∧
    writeBufs (main env d0).trace = writeBufs (main env d1).trace ∧
    console (main env d0).trace = console (main env d1).trace ∧
    (∀ (b : Byte) (rest : List (Int × Byte)), 0 ≤ env.openRet → 0 ≤ env.ioctlRet →
      env.writeRet 0 4 = 4 → env.writeRet 1 2 = 2 → env.writeRet 2 1 = 1 →
      env.reads = (1, b) :: rest →
      ∃ post, (main env d0).trace =
        (loopStart env d0).trace ++ [Event.write env.openRet [GPIOA] 1,
          Event.read env.openRet 1 1 b,
          Event.write env.openRet [GPIOB, b] (env.writeRet 3 2)] ++ post) := by
  obtain ⟨-, -, -, htr, hst, -⟩ := main_agree env d0 d1
  refine ⟨htr, hst, by rw [htr], by rw [htr], ?_⟩
  intro b rest ho hi h4 h2 h1 hreads
  have hd : (loopStart env d0).data ≠ b ∨ (loopStart env d0).count < 1 :=
    Or.inr (by simp [loopStart])
  have hc : (loopStart env d0).count < LIMIT := by simp [loopStart, LIMIT]
  rw [main_ok env d0 ho hi h4 h2, hreads]
  by_cases hk : env.writeRet ((loopStart env d0).writes + 1) 2 = 2
  · have hbody := loopBody_change env (loopStart env d0) b h1 hd hk
    have hnone : (loopBody env (loopStart env d0) (some (1, b))).status = none := by
      rw [hbody]
      rfl
    simp only [whileLoop, hc, hnone, if_true]
    obtain ⟨post, hpost⟩ := whileLoop_extends env rest (loopBody env (loopStart env d0) (some (1, b)))
    rw [hpost, hbody]
    have hk' : env.writeRet 3 2 = 2 := hk
    rw [hk']
    exact ⟨[Event.stdout (dumpbin b),
      Event.stdout (printf_4_2u (asUnsigned (loopStart env d0).count) ++ ['\n']),
      Event.usleep DELAY] ++ post, by simp [loopStart]⟩
  · have hbody := loopBody_changeFail env (loopStart env d0) b h1 hd hk
    have hsome : ¬ (loopBody env (loopStart env d0) (some (1, b))).status = none := by
      rw [hbody]
      simp
    simp only [whileLoop, hc, hsome, if_true, if_false]
    rw [hbody]
    exact ⟨[Event.stdout "Error writing data\n".toList], by simp [loopStart]⟩

/-- C9 witness: the run on the single reading `7` from the initial values `0`
and `255`. -/
theorem initial_data_irrelevant_witness :
    (main (okEnv [7]) 0).trace = (main (okEnv [7]) 255).trace ∧
    (0 ≤ (okEnv [7]).openRet ∧ 0 ≤ (okEnv [7]).ioctlRet ∧ (okEnv [7]).writeRet 0 4 = 4 ∧
      (okEnv [7]).writeRet 1 2 = 2 ∧ (okEnv [7]).writeRet 2 1 = 1 ∧
      (okEnv [7]).reads = (1, 7) :: []) ∧
    ∃ post, (main (okEnv [7]) 0).trace =
      (loopStart (okEnv [7]) 0).trace ++ [Event.write (okEnv [7]).openRet [GPIOA] 1,
        Event.read (okEnv [7]).openRet 1 1 7,
        Event.write (okEnv [7]).openRet [GPIOB, 7] ((okEnv [7]).writeRet 3 2)] ++ post :=
  ⟨(initial_data_irrelevant (okEnv [7]) 0 255).1,
    ⟨by decide, by decide, rfl, rfl, rfl, rfl⟩,
    (initial_data_irrelevant (okEnv [7]) 0 255).2.2.2.2 7 [] (by decide) (by decide)
      rfl rfl rfl rfl⟩

end GpioExpander
